import Mathlib

/-!
Shallow embedding of the instanced transform animation and procedural layout
engine of the Cyber-Christmas-Tree-3D repository.

The carousel scheduler and the gallery layout solver (PhotoGallery component)
are modelled over the rationals, so that every definition is executable and
witnesses evaluate by computation.  The per-frame particle animator
(ParticleSystem.tsx) and the particle generator (TreeLogic.tsx) call the
transcendental functions Math.sin / Math.cos / Math.sqrt / Math.acos, so that
part is modelled over the reals with the corresponding Mathlib functions.
-/

set_option maxHeartbeats 1000000

namespace CyberTree

/-- A three-component vector, mirroring THREE.Vector3 (components generic in
the scalar type: the carousel and gallery are modelled over the rationals,
the particle animator over the reals). -/
structure Vec3 (α : Type) where
  x : α
  y : α
  z : α
  deriving DecidableEq

/-! ## Carousel scheduler (ChristmasFilmFrame.useFrame, src/unnamed/part_000) -/

/-- easeInOutCubic, part_000 lines 101-103:
x < 0.5 ? 4*x*x*x : 1 - Math.pow(-2*x + 2, 3) / 2. -/
def easeInOutCubic (x : ℚ) : ℚ :=
  if x < 1/2 then 4 * x * x * x else 1 - (-2 * x + 2)^3 / 2

/-- HOLD_DURATION = 1.0, part_000 line 138. -/
def HOLD_DURATION : ℚ := 1

/-- MOVE_DURATION = 0.8, part_000 line 139. -/
def MOVE_DURATION : ℚ := 8/10

/-- CYCLE_DURATION = HOLD_DURATION + MOVE_DURATION, part_000 line 140. -/
def CYCLE_DURATION : ℚ := HOLD_DURATION + MOVE_DURATION

/-- Truncation toward zero (the rounding JavaScript uses for its `%`
remainder operator), as a rational. -/
def ratTrunc (q : ℚ) : ℚ :=
  if 0 ≤ q then (⌊q⌋ : ℚ) else (⌈q⌉ : ℚ)

/-- The JavaScript remainder operator `a % b`: a - b * trunc (a / b)
(the result carries the sign of the dividend). -/
def jsRem (a b : ℚ) : ℚ := a - b * ratTrunc (a / b)

/-- The carousel scroll index, part_000 lines 199-214:
cycleIndex = Math.floor(time / CYCLE_DURATION); cyclePhase = time % CYCLE_DURATION;
scrollIndex = cycleIndex, plus easeInOutCubic((cyclePhase - HOLD_DURATION) / MOVE_DURATION)
when cyclePhase > HOLD_DURATION. -/
def scrollIndex (time : ℚ) : ℚ :=
  let cycleIndex : ℚ := (⌊time / CYCLE_DURATION⌋ : ℚ)
  let cyclePhase : ℚ := jsRem time CYCLE_DURATION
  if HOLD_DURATION < cyclePhase then
    cycleIndex + easeInOutCubic ((cyclePhase - HOLD_DURATION) / MOVE_DURATION)
  else cycleIndex

/-- The panel wrap logic, part_000 lines 220-224:
x = (baseX - currentScrollOffset) % totalWidth;
if (x < -totalWidth / 2) x += totalWidth;
if (x > totalWidth / 2) x -= totalWidth. -/
def wrapX (baseX currentScrollOffset totalWidth : ℚ) : ℚ :=
  let x0 := jsRem (baseX - currentScrollOffset) totalWidth
  let x1 := if x0 < -totalWidth / 2 then x0 + totalWidth else x0
  if totalWidth / 2 < x1 then x1 - totalWidth else x1

/-! ## Gallery layout solver (PhotoGallery.layoutData, src/unnamed/part_000) -/

/-- minDistance = 3.6, part_000 line 328. -/
def minDistance : ℚ := 36/10

/-- maxAttempts = 100, part_000 line 346. -/
def maxAttempts : ℕ := 100

/-- One placement produced by the layout solver: the accepted position and
whether the deterministic spiral fallback was used for it. -/
structure PanelPlacement where
  treePos : Vec3 ℚ
  usedFallback : Bool
  deriving DecidableEq

/-- Squared Euclidean distance between two rational vectors. -/
def dist2 (a b : Vec3 ℚ) : ℚ :=
  (a.x - b.x)^2 + (a.y - b.y)^2 + (a.z - b.z)^2

/-- The collision check of part_000 lines 371-378: a candidate collides when
some already-placed panel is nearer than minDistance.  The source compares the
Euclidean distance `candidate.distanceTo(existing.treePos) < minDistance`;
over the rationals this is modelled by the equivalent comparison of the
squared distance with minDistance^2. -/
def collides (candidate : Vec3 ℚ) (placed : List PanelPlacement) : Bool :=
  placed.any (fun e => decide (dist2 candidate e.treePos < minDistance^2))

/-- The attempt loop of part_000 lines 348-385: try the candidates
`cand attempt` in order, accepting the first that does not collide with the
already-placed panels; `none` when the fuel (maxAttempts) runs out.  The
candidate stream abstracts the random height/radius/angle draws and the
trigonometric construction of lines 349-369. -/
def tryAttempts (cand : ℕ → Vec3 ℚ) (placed : List PanelPlacement) :
    ℕ → ℕ → Option (Vec3 ℚ)
  | _, 0 => none
  | attempt, fuel + 1 =>
    if collides (cand attempt) placed then tryAttempts cand placed (attempt + 1) fuel
    else some (cand attempt)

/-- PhotoGallery.layoutData, part_000 lines 340-419: for each photo in order,
random collision-checked placement with at most maxAttempts attempts, falling
back to the deterministic spiral (getSpiralPos, abstracted as a parameter,
lines 331-338) when every attempt collides.  `cand i a` is the candidate
drawn at attempt `a` for photo `i`. -/
def layoutData (cand : ℕ → ℕ → Vec3 ℚ) (getSpiralPos : ℕ → Vec3 ℚ) :
    ℕ → List PanelPlacement
  | 0 => []
  | n + 1 =>
    let prev := layoutData cand getSpiralPos n
    prev ++ [match tryAttempts (cand n) prev 0 maxAttempts with
             | some bestPos => ⟨bestPos, false⟩
             | none => ⟨getSpiralPos n, true⟩]

/-- The placement produced for photo `n` (the element `layoutData` appends at
step `n + 1`). -/
def placedAt (cand : ℕ → ℕ → Vec3 ℚ) (getSpiralPos : ℕ → Vec3 ℚ) (n : ℕ) :
    PanelPlacement :=
  match tryAttempts (cand n) (layoutData cand getSpiralPos n) 0 maxAttempts with
  | some bestPos => ⟨bestPos, false⟩
  | none => ⟨getSpiralPos n, true⟩

/-- Concrete candidate stream used to exercise the layout solver: photo `i`
always proposes the point (10 i, 0, 0). -/
def candW : ℕ → ℕ → Vec3 ℚ := fun i _ => ⟨10 * (i : ℚ), 0, 0⟩

/-- Concrete spiral fallback used to exercise the layout solver. -/
def spiralW : ℕ → Vec3 ℚ := fun i => ⟨(i : ℚ), -20, 0⟩

/-! ## Particle data and the per-frame animator (src/components/ParticleSystem.tsx)

The animator works on floating-point numbers and calls Math.sin / Math.sqrt;
it is modelled over the reals. -/

/-- ParticleData.type, src/types.ts lines 8-16. -/
inductive PType where
  | LEAF
  | ORNAMENT
  | RIBBON
  | STAR_PARTICLE
  deriving DecidableEq

/-- ParticleData, src/types.ts lines 8-16 (the rotation Euler triple and the
optional color feed only the rotation / instance-color outputs and are not
modelled). -/
structure ParticleData where
  id : ℝ
  treePosition : Vec3 ℝ
  explodePosition : Vec3 ℝ
  scale : ℝ
  type : PType

noncomputable section

/-- THREE.MathUtils.clamp(value, lo, hi) = max(lo, min(hi, value)). -/
def clamp (value lo hi : ℝ) : ℝ := max lo (min hi value)

/-- THREE.Vector3.lerp: each component moves by (target - current) * alpha. -/
def vlerp (a b : Vec3 ℝ) (alpha : ℝ) : Vec3 ℝ :=
  ⟨a.x + (b.x - a.x) * alpha, a.y + (b.y - a.y) * alpha, a.z + (b.z - a.z) * alpha⟩

/-- THREE.Vector3.distanceTo: the Euclidean distance. -/
def distanceTo (a b : Vec3 ℝ) : ℝ :=
  Real.sqrt ((a.x - b.x)^2 + (a.y - b.y)^2 + (a.z - b.z)^2)

/-- waveSpeed = 20, ParticleSystem.tsx line 82. -/
def waveSpeed : ℝ := 20

/-- waveStartOffset = -15, ParticleSystem.tsx line 83. -/
def waveStartOffset : ℝ := -15

/-- currentWaveHeight = waveStartOffset + timeSinceTransition * waveSpeed,
ParticleSystem.tsx line 84. -/
def currentWaveHeight (timeSinceTransition : ℝ) : ℝ :=
  waveStartOffset + timeSinceTransition * waveSpeed

/-- The base interpolation speed, ParticleSystem.tsx line 77:
lerpFactor = clamp(delta * animationSpeed, 0, 1). -/
def lerpFactor (delta animationSpeed : ℝ) : ℝ :=
  clamp (delta * animationSpeed) 0 1

/-- The per-frame interpolation target, ParticleSystem.tsx lines 101-102 and
136-149: the tree or explode position, with the assembled-mode bob (leaves and
ornaments only) or the dispersed-mode chaotic drift (leaves and ornaments
only) added on top.  Ribbon and star particles keep the unmodified target. -/
def targetOf (p : ParticleData) (targetIsTree : Bool) (time : ℝ) : Vec3 ℝ :=
  let base := if targetIsTree then p.treePosition else p.explodePosition
  if p.type = PType.RIBBON ∨ p.type = PType.STAR_PARTICLE then base
  else if targetIsTree then
    ⟨base.x, base.y + Real.sin (time * 1.5 + p.id * 0.1) * 0.05, base.z⟩
  else
    ⟨base.x + Real.cos (time * 0.3 + p.id) * 0.08,
     base.y + Real.sin (time * 0.2 + p.id) * 0.05,
     base.z + Real.sin (time * 0.3 + p.id) * 0.08⟩

/-- The scale computed by the behavior branches of ParticleSystem.tsx lines
106-150 (before the streak-suppression override of lines 183-185):
ribbon reveal wave (lines 108-120), star reveal threshold (lines 121-135),
ornament explode boost (line 143), otherwise the particle's base scale. -/
def scaleRaw (p : ParticleData) (targetIsTree : Bool) (time tst : ℝ) : ℝ :=
  if p.type = PType.RIBBON then
    if targetIsTree then
      if p.treePosition.y < currentWaveHeight tst then
        p.scale * (0.8 + 0.4 * Real.sin (time * 3 + ((p.treePosition.y + 12.5) / 25) * 10))
      else 0.01
    else 0
  else if p.type = PType.STAR_PARTICLE then
    if targetIsTree then
      if 14.0 < currentWaveHeight tst then
        p.scale * (min 1 ((currentWaveHeight tst - 14.0) / 5)) * (1 + 0.3 * Real.sin (time * 5 + p.id))
      else 0.001
    else 0
  else if targetIsTree then p.scale
  else if p.type = PType.ORNAMENT then p.scale * 1.2
  else p.scale

/-- The interpolation factor actually used, ParticleSystem.tsx lines 155-164:
the base lerpFactor, overridden for ribbon particles in assembled mode to 0.2
(below the wave) or 0.05 (still waiting). -/
def activeLerp (p : ParticleData) (targetIsTree : Bool) (tst delta animationSpeed : ℝ) : ℝ :=
  if p.type = PType.RIBBON ∧ targetIsTree = true then
    if p.treePosition.y < currentWaveHeight tst then 0.2 else 0.05
  else lerpFactor delta animationSpeed

/-- One frame of ParticleSystem.useFrame for one particle (lines 91-202):
returns the new running position (after the lerp of line 166) and the emitted
scale (after the streak suppression of lines 183-185, which forces 0.01 for
ribbon/star particles in assembled mode whose post-lerp position is farther
than 3.0 from the assembled target).  `tst` is timeSinceTransition. -/
def particleFrame (p : ParticleData) (pos : Vec3 ℝ) (targetIsTree : Bool)
    (time tst delta animationSpeed : ℝ) : Vec3 ℝ × ℝ :=
  let newPos := vlerp pos (targetOf p targetIsTree time)
    (activeLerp p targetIsTree tst delta animationSpeed)
  let s0 := scaleRaw p targetIsTree time tst
  (newPos,
   if (p.type = PType.RIBBON ∨ p.type = PType.STAR_PARTICLE) ∧ targetIsTree = true then
     if 3.0 < distanceTo newPos p.treePosition then 0.01 else s0
   else s0)

/-- The running position across a session of frames in a fixed mode: frame `n`
runs at clock time `times n` with frame delta `deltas n`; `t0` is the
transitionStartTime recorded at the last mode change, so frame `n` sees
timeSinceTransition = times n - t0.  `posSeq ... n` is the stored position
BEFORE frame `n`; frame `n` emits position `posSeq ... (n+1)`. -/
def posSeq (p : ParticleData) (p0 : Vec3 ℝ) (targetIsTree : Bool)
    (times deltas : ℕ → ℝ) (t0 animationSpeed : ℝ) : ℕ → Vec3 ℝ
  | 0 => p0
  | n + 1 =>
    (particleFrame p (posSeq p p0 targetIsTree times deltas t0 animationSpeed n)
      targetIsTree (times n) (times n - t0) (deltas n) animationSpeed).1

/-- The scale emitted at frame `n` of a session (computed from the post-lerp
position, as in the source). -/
def scaleSeq (p : ParticleData) (p0 : Vec3 ℝ) (targetIsTree : Bool)
    (times deltas : ℕ → ℝ) (t0 animationSpeed : ℝ) (n : ℕ) : ℝ :=
  (particleFrame p (posSeq p p0 targetIsTree times deltas t0 animationSpeed n)
    targetIsTree (times n) (times n - t0) (deltas n) animationSpeed).2

/-- Frame `n` of an assembled-mode session takes the visible branch for a
ribbon particle: the wave has passed the particle's assembled height and the
post-lerp position is within the 3.0 streak-suppression distance, so the
emitted scale is the sin-modulated reveal formula rather than the hidden
constant 0.01. -/
def ribbonRevealedAt (p : ParticleData) (p0 : Vec3 ℝ) (times deltas : ℕ → ℝ)
    (t0 animationSpeed : ℝ) (n : ℕ) : Prop :=
  p.treePosition.y < currentWaveHeight (times n - t0) ∧
  distanceTo (posSeq p p0 true times deltas t0 animationSpeed (n + 1)) p.treePosition ≤ 3.0

/-- Frame `n` of an assembled-mode session takes the visible branch for a star
particle: the wave has cleared the fixed 14.0 threshold and the post-lerp
position is within the 3.0 streak-suppression distance, so the emitted scale
is the pop-in formula rather than the hidden constant 0.001. -/
def starRevealedAt (p : ParticleData) (p0 : Vec3 ℝ) (times deltas : ℕ → ℝ)
    (t0 animationSpeed : ℝ) (n : ℕ) : Prop :=
  14.0 < currentWaveHeight (times n - t0) ∧
  distanceTo (posSeq p p0 true times deltas t0 animationSpeed (n + 1)) p.treePosition ≤ 3.0

/-! ## Particle generation (src/components/TreeLogic.tsx) -/

/-- treeHeight = 25, TreeLogic.tsx line 70. -/
def treeHeight : ℝ := 25

/-- baseRadius = 8, TreeLogic.tsx line 71. -/
def baseRadius : ℝ := 8

/-- countLeaves = 6000, TreeLogic.tsx line 72. -/
def countLeaves : ℕ := 6000

/-- countOrnaments = 80, TreeLogic.tsx line 73. -/
def countOrnaments : ℕ := 80

/-- countRibbon = 1800, TreeLogic.tsx line 74. -/
def countRibbon : ℕ := 1800

/-- randomSpherePoint, TreeLogic.tsx lines 78-89; `u`, `v`, `w` are the three
Math.random() draws (theta, phi and the cube-root radius scaling). -/
def randomSpherePoint (u v w r : ℝ) : Vec3 ℝ :=
  let theta := 2 * Real.pi * u
  let phi := Real.arccos (2 * v - 1)
  let radius := w ^ ((1 : ℝ)/3) * r
  ⟨radius * Real.sin phi * Real.cos theta,
   radius * Real.sin phi * Real.sin theta,
   radius * Real.cos phi⟩

/-- The Euclidean norm of a real vector. -/
def vnorm (a : Vec3 ℝ) : ℝ := Real.sqrt (a.x^2 + a.y^2 + a.z^2)

/-- Leaf generation, TreeLogic.tsx lines 92-118; `y01 angle01 r01 s01` are the
Math.random() draws for height, angle, in-disk radius and scale, and `u v w`
the draws consumed by randomSpherePoint. -/
def mkLeaf (i : ℕ) (y01 angle01 r01 u v w s01 : ℝ) : ParticleData :=
  let y := y01 * treeHeight
  let hPercent := y / treeHeight
  let currentRadius := (1 - hPercent) * baseRadius
  let angle := angle01 * Real.pi * 2
  let r := Real.sqrt r01 * currentRadius
  { id := (i : ℝ)
    treePosition := ⟨Real.cos angle * r, y - treeHeight / 2, Real.sin angle * r⟩
    explodePosition := randomSpherePoint u v w 45
    scale := s01 * 0.3 + 0.1
    type := PType.LEAF }

/-- Ornament generation, TreeLogic.tsx lines 121-152 (the red/gold split only
selects the material and is not modelled). -/
def mkOrnament (i : ℕ) (y01 angle01 r01 u v w s01 : ℝ) : ParticleData :=
  let y := y01 * treeHeight
  let hPercent := y / treeHeight
  let currentRadius := (1 - hPercent) * baseRadius * 0.9
  let angle := angle01 * Real.pi * 2
  let r := currentRadius + r01 * 0.5
  { id := ((countLeaves + i : ℕ) : ℝ)
    treePosition := ⟨Real.cos angle * r, y - treeHeight / 2, Real.sin angle * r⟩
    explodePosition := randomSpherePoint u v w 55
    scale := s01 * 0.3 + 0.25
    type := PType.ORNAMENT }

/-- Ribbon (garland helix) generation, TreeLogic.tsx lines 154-189; `N` is
countRibbon, `spread01` the lateral jitter draw (the color gradient is not
modelled). -/
def mkRibbonParticle (i N : ℕ) (spread01 u v w s01 : ℝ) : ParticleData :=
  let turns : ℝ := 4.0
  let pct := (i : ℝ) / (N : ℝ)
  let y := pct * treeHeight
  let hPercent := y / treeHeight
  let spread := 0.2 + hPercent * 1.5
  let currentRadius := (1 - hPercent) * baseRadius + 1.2 + (spread01 - 0.5) * spread
  let angle := pct * turns * Real.pi * 2
  { id := ((countLeaves + countOrnaments + i : ℕ) : ℝ)
    treePosition := ⟨Real.cos angle * currentRadius, y - treeHeight / 2, Real.sin angle * currentRadius⟩
    explodePosition := randomSpherePoint u v w 60
    scale := s01 * 0.15 + 0.08
    type := PType.RIBBON }

/-- Star particle generation, TreeLogic.tsx lines 191-224; `lobe01 t01 off01
z01 s01` are the Math.random() draws for the lobe pick, the lerp parameter
along the lobe, the perpendicular jitter, the depth jitter and the scale. -/
def mkStarParticle (i : ℕ) (lobe01 t01 off01 z01 u v w s01 : ℝ) : ParticleData :=
  let outerRadius : ℝ := 1.4
  let starCenterY := treeHeight / 2 + 1.5
  let lobe : ℝ := (⌊lobe01 * 5⌋ : ℝ)
  let t := t01
  let widthAtT := (1 - t) * 0.6
  let radialDist := t * outerRadius
  let lobeAngle := (lobe / 5) * Real.pi * 2 - Real.pi / 2
  let perpAngle := lobeAngle + Real.pi / 2
  let offset := (off01 - 0.5) * widthAtT
  { id := ((countLeaves + countOrnaments + countRibbon + i : ℕ) : ℝ)
    treePosition := ⟨Real.cos lobeAngle * radialDist + Real.cos perpAngle * offset,
                     Real.sin lobeAngle * radialDist + Real.sin perpAngle * offset + starCenterY,
                     (z01 - 0.5) * 0.6⟩
    explodePosition := randomSpherePoint u v w 80
    scale := s01 * 0.12 + 0.05
    type := PType.STAR_PARTICLE }

/-- A concrete star particle (assembled height 15, inside the generator's
reachable band around starCenterY = 14, base scale 0.17 = the generator's
maximum star scale). -/
def starHigh : ParticleData :=
  { id := 0, treePosition := ⟨0, 15, 0⟩, explodePosition := ⟨0, 0, 0⟩,
    scale := 17/100, type := PType.STAR_PARTICLE }

/-- A concrete star particle at assembled height 0. -/
def starLow : ParticleData :=
  { id := 0, treePosition := ⟨0, 0, 0⟩, explodePosition := ⟨5, 0, 0⟩,
    scale := 1/10, type := PType.STAR_PARTICLE }

/-- A concrete ribbon particle at assembled height 5 (the height used in the
reveal-timing scenario). -/
def ribbonAt5 : ParticleData :=
  { id := 0, treePosition := ⟨0, 5, 0⟩, explodePosition := ⟨0, 0, 0⟩,
    scale := 1/10, type := PType.RIBBON }

/-- A concrete ribbon particle whose assembled and dispersed positions
differ. -/
def ribbonW : ParticleData :=
  { id := 0, treePosition := ⟨0, 0, 0⟩, explodePosition := ⟨1, 0, 0⟩,
    scale := 1/10, type := PType.RIBBON }

end

/-! ## Helper lemmas -/

theorem ratTrunc_of_nonneg {q : ℚ} (h : 0 ≤ q) : ratTrunc q = (⌊q⌋ : ℚ) := by
  simp [ratTrunc, h]

theorem jsRem_bounds {a b : ℚ} (hb : 0 < b) : -b < jsRem a b ∧ jsRem a b < b := by
  have hb0 : b ≠ 0 := ne_of_gt hb
  have hrepr : jsRem a b = b * (a / b - ratTrunc (a / b)) := by
    field_simp [jsRem]
  rcases le_or_lt 0 (a / b) with hq | hq
  · rw [hrepr, ratTrunc_of_nonneg hq]
    have h1 : (⌊a / b⌋ : ℚ) ≤ a / b := Int.floor_le _
    have h2 : a / b < (⌊a / b⌋ : ℚ) + 1 := Int.lt_floor_add_one _
    constructor <;> nlinarith
  · rw [hrepr]
    have hlt : ¬ (0 : ℚ) ≤ a / b := not_le.mpr hq
    rw [ratTrunc, if_neg hlt]
    have h1 : a / b ≤ (⌈a / b⌉ : ℚ) := Int.le_ceil _
    have h2 : (⌈a / b⌉ : ℚ) < a / b + 1 := Int.ceil_lt_add_one _
    constructor <;> nlinarith

theorem jsRem_nonneg {a b : ℚ} (ha : 0 ≤ a) (hb : 0 < b) : 0 ≤ jsRem a b := by
  have hq : 0 ≤ a / b := div_nonneg ha hb.le
  have hrepr : jsRem a b = b * (a / b - ratTrunc (a / b)) := by
    field_simp [jsRem]
  rw [hrepr, ratTrunc_of_nonneg hq]
  have h1 : (⌊a / b⌋ : ℚ) ≤ a / b := Int.floor_le _
  nlinarith

theorem jsRem_add_cycle {t : ℚ} (k : ℕ) (ht : 0 ≤ t) {c : ℚ} (hc : 0 < c) :
    jsRem (t + k * c) c = jsRem t c := by
  have hc0 : c ≠ 0 := ne_of_gt hc
  have hdiv : (t + k * c) / c = t / c + k := by field_simp
  have hq : (0 : ℚ) ≤ t / c := div_nonneg ht hc.le
  have hq' : (0 : ℚ) ≤ (t + k * c) / c := by
    rw [hdiv]; positivity
  rw [jsRem, jsRem, ratTrunc_of_nonneg hq, ratTrunc_of_nonneg hq', hdiv,
    Int.floor_add_nat]
  push_cast
  ring

theorem floor_add_cycle {t : ℚ} (k : ℕ) {c : ℚ} (hc : 0 < c) :
    ⌊(t + k * c) / c⌋ = ⌊t / c⌋ + k := by
  have hc0 : c ≠ 0 := ne_of_gt hc
  have hdiv : (t + k * c) / c = t / c + k := by field_simp
  rw [hdiv, Int.floor_add_nat]

theorem dist2_comm (a b : Vec3 ℚ) : dist2 a b = dist2 b a := by
  unfold dist2; ring

theorem layoutData_succ (cand : ℕ → ℕ → Vec3 ℚ) (gsp : ℕ → Vec3 ℚ) (n : ℕ) :
    layoutData cand gsp (n + 1) = layoutData cand gsp n ++ [placedAt cand gsp n] := rfl

theorem layoutData_length (cand : ℕ → ℕ → Vec3 ℚ) (gsp : ℕ → Vec3 ℚ) :
    ∀ n, (layoutData cand gsp n).length = n
  | 0 => rfl
  | n + 1 => by
    rw [layoutData_succ, List.length_append, layoutData_length cand gsp n]
    rfl

theorem layoutData_get (cand : ℕ → ℕ → Vec3 ℚ) (gsp : ℕ → Vec3 ℚ) :
    ∀ (n i : ℕ) (h : i < (layoutData cand gsp n).length),
      (layoutData cand gsp n).get ⟨i, h⟩ = placedAt cand gsp i := by
  intro n
  induction n with
  | zero => intro i h; simp [layoutData] at h
  | succ n ih =>
    intro i h
    have hlen : (layoutData cand gsp n).length = n := layoutData_length cand gsp n
    have h' : i < n + 1 := by rw [layoutData_length] at h; exact h
    simp only [List.get_eq_getElem, layoutData_succ]
    rcases Nat.lt_succ_iff_lt_or_eq.mp h' with hi | hi
    · rw [List.getElem_append_left (by rw [hlen]; exact hi)]
      have := ih i (by rw [hlen]; exact hi)
      simpa [List.get_eq_getElem] using this
    · subst hi
      rw [List.getElem_append_right (le_of_eq hlen)]
      simp [hlen]

theorem placedAt_mem (cand : ℕ → ℕ → Vec3 ℚ) (gsp : ℕ → Vec3 ℚ) :
    ∀ {n i : ℕ}, i < n → placedAt cand gsp i ∈ layoutData cand gsp n := by
  intro n
  induction n with
  | zero => intro i h; omega
  | succ n ih =>
    intro i h
    rw [layoutData_succ]
    rcases Nat.lt_succ_iff_lt_or_eq.mp h with h' | h'
    · exact List.mem_append_left _ (ih h')
    · subst h'
      exact List.mem_append_right _ (List.mem_singleton_self _)

theorem tryAttempts_accept {cand : ℕ → Vec3 ℚ} {placed : List PanelPlacement} :
    ∀ (fuel attempt : ℕ) {v : Vec3 ℚ},
      tryAttempts cand placed attempt fuel = some v → collides v placed = false
  | 0, a, v, h => by simp [tryAttempts] at h
  | fuel + 1, a, v, h => by
    rw [tryAttempts] at h
    split at h
    · exact tryAttempts_accept fuel (a + 1) h
    · next hc =>
      rw [Option.some.injEq] at h
      subst h
      exact Bool.eq_false_iff.mpr hc

theorem tryAttempts_accept_first {cand : ℕ → Vec3 ℚ} {placed : List PanelPlacement}
    {a f : ℕ} (h : collides (cand a) placed = false) :
    tryAttempts cand placed a (f + 1) = some (cand a) := by
  rw [tryAttempts]
  simp [h]

theorem tryAttempts_exhaust {cand : ℕ → Vec3 ℚ} {placed : List PanelPlacement} :
    ∀ (fuel attempt : ℕ),
      (∀ k, k < fuel → collides (cand (attempt + k)) placed = true) →
      tryAttempts cand placed attempt fuel = none
  | 0, _, _ => rfl
  | fuel + 1, a, h => by
    rw [tryAttempts]
    have h0 : collides (cand a) placed = true := by simpa using h 0 (Nat.succ_pos _)
    simp only [h0, if_true]
    exact tryAttempts_exhaust fuel (a + 1) (fun k hk => by
      have hk1 := h (k + 1) (Nat.succ_lt_succ hk)
      have harg : a + (k + 1) = a + 1 + k := by omega
      rwa [harg] at hk1)

theorem collides_false_spaced {v : Vec3 ℚ} {placed : List PanelPlacement}
    (h : collides v placed = false) {e : PanelPlacement} (he : e ∈ placed) :
    minDistance^2 ≤ dist2 v e.treePos := by
  by_contra hlt
  push_neg at hlt
  have htrue : collides v placed = true := by
    simp only [collides, List.any_eq_true]
    exact ⟨e, he, by simpa using hlt⟩
  rw [htrue] at h
  exact absurd h (by simp)

theorem layoutData_spaced_aux (cand : ℕ → ℕ → Vec3 ℚ) (gsp : ℕ → Vec3 ℚ)
    {i j : ℕ} (hij : i < j)
    (hacc : (placedAt cand gsp j).usedFallback = false) :
    minDistance^2 ≤ dist2 (placedAt cand gsp i).treePos (placedAt cand gsp j).treePos := by
  have hmem : placedAt cand gsp i ∈ layoutData cand gsp j := placedAt_mem cand gsp hij
  rcases htry : tryAttempts (cand j) (layoutData cand gsp j) 0 maxAttempts with _ | v
  · exfalso
    unfold placedAt at hacc
    rw [htry] at hacc
    simp at hacc
  · have hpj : placedAt cand gsp j = ⟨v, false⟩ := by
      unfold placedAt
      rw [htry]
    have hcol : collides v (layoutData cand gsp j) = false :=
      tryAttempts_accept _ _ htry
    have hd := collides_false_spaced hcol hmem
    rw [hpj]
    simpa [dist2_comm] using hd

theorem vlerp_x (a b : Vec3 ℝ) (l : ℝ) : (vlerp a b l).x = a.x + (b.x - a.x) * l := rfl

theorem vlerp_y (a b : Vec3 ℝ) (l : ℝ) : (vlerp a b l).y = a.y + (b.y - a.y) * l := rfl

theorem vlerp_z (a b : Vec3 ℝ) (l : ℝ) : (vlerp a b l).z = a.z + (b.z - a.z) * l := rfl

theorem vlerp_self (a : Vec3 ℝ) (l : ℝ) : vlerp a a l = a := by
  unfold vlerp
  congr 1 <;> ring

theorem distanceTo_nonneg (a b : Vec3 ℝ) : 0 ≤ distanceTo a b := Real.sqrt_nonneg _

theorem distanceTo_self (a : Vec3 ℝ) : distanceTo a a = 0 := by
  simp [distanceTo]

theorem distanceTo_vlerp (a b : Vec3 ℝ) (l : ℝ) :
    distanceTo (vlerp a b l) b = |1 - l| * distanceTo a b := by
  unfold distanceTo
  rw [vlerp_x, vlerp_y, vlerp_z]
  rw [show (a.x + (b.x - a.x) * l - b.x)^2 + (a.y + (b.y - a.y) * l - b.y)^2 +
      (a.z + (b.z - a.z) * l - b.z)^2
      = (1 - l)^2 * ((a.x - b.x)^2 + (a.y - b.y)^2 + (a.z - b.z)^2) from by ring]
  rw [Real.sqrt_mul (sq_nonneg _), Real.sqrt_sq_eq_abs]

theorem distanceTo_pos_of_ne {a b : Vec3 ℝ} (h : a ≠ b) : 0 < distanceTo a b := by
  have hS : 0 ≤ (a.x - b.x)^2 + (a.y - b.y)^2 + (a.z - b.z)^2 := by positivity
  rcases lt_or_eq_of_le hS with hpos | heq
  · unfold distanceTo
    exact Real.sqrt_pos.mpr hpos
  · exfalso
    apply h
    obtain ⟨ax, ay, az⟩ := a
    obtain ⟨bx, bb, bz⟩ := b
    simp only at heq
    have h1 : ax = bx := by nlinarith [sq_nonneg (ax - bx), sq_nonneg (ay - bb), sq_nonneg (az - bz)]
    have h2 : ay = bb := by nlinarith [sq_nonneg (ax - bx), sq_nonneg (ay - bb), sq_nonneg (az - bz)]
    have h3 : az = bz := by nlinarith [sq_nonneg (ax - bx), sq_nonneg (ay - bb), sq_nonneg (az - bz)]
    rw [h1, h2, h3]

theorem lerpFactor_mem (delta speed : ℝ) :
    0 ≤ lerpFactor delta speed ∧ lerpFactor delta speed ≤ 1 := by
  unfold lerpFactor clamp
  exact ⟨le_max_left 0 _, max_le (by norm_num) (min_le_left _ _)⟩

theorem activeLerp_mem (p : ParticleData) (b : Bool) (tst delta speed : ℝ) :
    0 ≤ activeLerp p b tst delta speed ∧ activeLerp p b tst delta speed ≤ 1 := by
  unfold activeLerp
  split_ifs with h1 h2
  · norm_num
  · norm_num
  · exact lerpFactor_mem delta speed

theorem particleFrame_fst (p : ParticleData) (pos : Vec3 ℝ) (b : Bool)
    (time tst delta speed : ℝ) :
    (particleFrame p pos b time tst delta speed).1 =
      vlerp pos (targetOf p b time) (activeLerp p b tst delta speed) := rfl

theorem particleFrame_snd (p : ParticleData) (pos : Vec3 ℝ) (b : Bool)
    (time tst delta speed : ℝ) :
    (particleFrame p pos b time tst delta speed).2 =
      if (p.type = PType.RIBBON ∨ p.type = PType.STAR_PARTICLE) ∧ b = true then
        if 3.0 < distanceTo (particleFrame p pos b time tst delta speed).1 p.treePosition then 0.01
        else scaleRaw p b time tst
      else scaleRaw p b time tst := rfl

theorem targetOf_tree_fixed {p : ParticleData}
    (hp : p.type = PType.RIBBON ∨ p.type = PType.STAR_PARTICLE) (time : ℝ) :
    targetOf p true time = p.treePosition := by
  unfold targetOf
  rw [if_pos hp]
  rfl

theorem targetOf_explode_fixed {p : ParticleData}
    (hp : p.type = PType.RIBBON ∨ p.type = PType.STAR_PARTICLE) (time : ℝ) :
    targetOf p false time = p.explodePosition := by
  unfold targetOf
  rw [if_pos hp]
  rfl

theorem scaleRaw_ribbon_hidden {p : ParticleData} (hR : p.type = PType.RIBBON)
    {time tst : ℝ} (hw : ¬ p.treePosition.y < currentWaveHeight tst) :
    scaleRaw p true time tst = 0.01 := by
  simp [scaleRaw, hR, hw]

theorem scaleRaw_ribbon_visible {p : ParticleData} (hR : p.type = PType.RIBBON)
    {time tst : ℝ} (hw : p.treePosition.y < currentWaveHeight tst) :
    scaleRaw p true time tst =
      p.scale * (0.8 + 0.4 * Real.sin (time * 3 + ((p.treePosition.y + 12.5) / 25) * 10)) := by
  simp [scaleRaw, hR, hw]

theorem scaleRaw_star_hidden {p : ParticleData} (hS : p.type = PType.STAR_PARTICLE)
    {time tst : ℝ} (hw : ¬ (14.0 : ℝ) < currentWaveHeight tst) :
    scaleRaw p true time tst = 0.001 := by
  have hR : ¬ p.type = PType.RIBBON := by rw [hS]; intro hc; exact PType.noConfusion hc
  simp [scaleRaw, hR, hS, hw]

theorem scaleRaw_star_visible {p : ParticleData} (hS : p.type = PType.STAR_PARTICLE)
    {time tst : ℝ} (hw : (14.0 : ℝ) < currentWaveHeight tst) :
    scaleRaw p true time tst =
      p.scale * (min 1 ((currentWaveHeight tst - 14.0) / 5)) * (1 + 0.3 * Real.sin (time * 5 + p.id)) := by
  have hR : ¬ p.type = PType.RIBBON := by rw [hS]; intro hc; exact PType.noConfusion hc
  simp [scaleRaw, hR, hS, hw]

/-! ## Claim theorems -/

/-- C10: easeInOutCubic maps 0 to 0 and 1 to 1, its two branch formulas agree
at x = 1/2 (both giving 1/2), it is monotonically non-decreasing on [0, 1],
and it maps [0, 1] into [0, 1]. -/
theorem easeInOutCubic_props :
    easeInOutCubic 0 = 0 ∧ easeInOutCubic 1 = 1 ∧
    (4 * (1/2 : ℚ) * (1/2) * (1/2) = 1/2 ∧ 1 - (-2 * (1/2 : ℚ) + 2)^3 / 2 = 1/2 ∧
      easeInOutCubic (1/2) = 1/2) ∧
    (∀ x y : ℚ, 0 ≤ x → x ≤ y → y ≤ 1 → easeInOutCubic x ≤ easeInOutCubic y) ∧
    (∀ x : ℚ, 0 ≤ x → x ≤ 1 → 0 ≤ easeInOutCubic x ∧ easeInOutCubic x ≤ 1) := by
  refine ⟨by norm_num [easeInOutCubic], by norm_num [easeInOutCubic],
    ⟨by norm_num, by norm_num, by norm_num [easeInOutCubic]⟩, ?_, ?_⟩
  · intro x y hx hxy hy1
    unfold easeInOutCubic
    rcases lt_or_le x (1/2) with hx2 | hx2 <;> rcases lt_or_le y (1/2) with hy2 | hy2
    · rw [if_pos hx2, if_pos hy2]
      nlinarith [sq_nonneg (x + y), sq_nonneg (x - y)]
    · rw [if_pos hx2, if_neg (not_lt.mpr hy2)]
      nlinarith [sq_nonneg (2 - 2*y), sq_nonneg x, mul_nonneg hx hx,
        mul_nonneg (mul_nonneg hx hx) hx]
    · linarith
    · rw [if_neg (not_lt.mpr hx2), if_neg (not_lt.mpr hy2)]
      nlinarith [sq_nonneg ((2 - 2*x) + (2 - 2*y)), sq_nonneg ((2 - 2*x) - (2 - 2*y))]
  · intro x hx hx1
    unfold easeInOutCubic
    rcases lt_or_le x (1/2) with h | h
    · rw [if_pos h]
      constructor <;> nlinarith [mul_nonneg (mul_nonneg hx hx) hx]
    · rw [if_neg (not_lt.mpr h)]
      constructor <;> nlinarith [sq_nonneg (2 - 2*x), mul_nonneg (sq_nonneg (2 - 2*x)) (by linarith : (0:ℚ) ≤ 2 - 2*x)]

/-- Witness for C10 at concrete inputs. -/
theorem easeInOutCubic_props_witness :
    (0 : ℚ) ≤ 0 ∧ (0 : ℚ) ≤ 1 ∧ (1 : ℚ) ≤ 1 ∧
    easeInOutCubic 0 ≤ easeInOutCubic 1 ∧
    (0 ≤ easeInOutCubic (1/4) ∧ easeInOutCubic (1/4) ≤ 1) :=
  ⟨le_refl 0, by norm_num, le_refl 1,
   easeInOutCubic_props.2.2.2.1 0 1 (le_refl 0) (by norm_num) (le_refl 1),
   easeInOutCubic_props.2.2.2.2 (1/4) (by norm_num) (by norm_num)⟩

/-- C7: for every time t ≥ 0 and every natural k, the carousel scroll index at
t + k * CYCLE_DURATION equals the scroll index at t plus exactly k; and for
every t ≥ 0 whose phase within the cycle lies in the HOLD sub-interval
(cyclePhase ≤ HOLD_DURATION), the scroll index equals
floor(t / CYCLE_DURATION) with no eased offset added. -/
theorem scrollIndex_periodic_and_hold :
    (∀ (t : ℚ) (k : ℕ), 0 ≤ t →
      scrollIndex (t + k * CYCLE_DURATION) = scrollIndex t + k) ∧
    (∀ t : ℚ, 0 ≤ t → jsRem t CYCLE_DURATION ≤ HOLD_DURATION →
      scrollIndex t = (⌊t / CYCLE_DURATION⌋ : ℚ)) := by
  have hc : (0 : ℚ) < CYCLE_DURATION := by
    norm_num [CYCLE_DURATION, HOLD_DURATION, MOVE_DURATION]
  constructor
  · intro t k ht
    simp only [scrollIndex]
    rw [jsRem_add_cycle k ht hc, floor_add_cycle k hc]
    push_cast
    by_cases h : HOLD_DURATION < jsRem t CYCLE_DURATION
    · rw [if_pos h, if_pos h]; ring
    · rw [if_neg h, if_neg h]
  · intro t ht hhold
    simp only [scrollIndex]
    rw [if_neg (not_lt.mpr hhold)]

/-- Witness for C7 at t = 1/2 (a HOLD-phase instant) and k = 1. -/
theorem scrollIndex_periodic_and_hold_witness :
    (0 : ℚ) ≤ 1/2 ∧ jsRem (1/2) CYCLE_DURATION ≤ HOLD_DURATION ∧
    scrollIndex (1/2 + 1 * CYCLE_DURATION) = scrollIndex (1/2) + 1 ∧
    scrollIndex (1/2) = (⌊(1/2 : ℚ) / CYCLE_DURATION⌋ : ℚ) :=
  ⟨by norm_num,
   by norm_num [jsRem, ratTrunc, CYCLE_DURATION, HOLD_DURATION, MOVE_DURATION],
   by simpa using scrollIndex_periodic_and_hold.1 (1/2) 1 (by norm_num),
   scrollIndex_periodic_and_hold.2 (1/2) (by norm_num)
     (by norm_num [jsRem, ratTrunc, CYCLE_DURATION, HOLD_DURATION, MOVE_DURATION])⟩

/-- C8: for every panel slot position, scroll offset and positive total width,
the wrapped horizontal carousel offset (JavaScript remainder followed by at
most one correction by ± totalWidth) lies in
[-totalWidth / 2, totalWidth / 2], including when the remainder is
negative. -/
theorem wrapX_within_half_width :
    ∀ baseX currentScrollOffset totalWidth : ℚ, 0 < totalWidth →
      -totalWidth / 2 ≤ wrapX baseX currentScrollOffset totalWidth ∧
      wrapX baseX currentScrollOffset totalWidth ≤ totalWidth / 2 := by
  intro bX off tw htw
  obtain ⟨hlo, hhi⟩ := jsRem_bounds (a := bX - off) htw
  simp only [wrapX]
  by_cases h1 : jsRem (bX - off) tw < -tw / 2
  · rw [if_pos h1, if_neg (by linarith : ¬ tw / 2 < jsRem (bX - off) tw + tw)]
    constructor <;> linarith
  · rw [if_neg h1]
    push_neg at h1
    by_cases h2 : tw / 2 < jsRem (bX - off) tw
    · rw [if_pos h2]
      constructor <;> linarith
    · rw [if_neg h2]
      push_neg at h2
      constructor <;> linarith

/-- Witness for C8 at a concrete input whose JavaScript remainder is
negative. -/
theorem wrapX_within_half_width_witness :
    (0 : ℚ) < 2 ∧ -(2 : ℚ) / 2 ≤ wrapX 0 5 2 ∧ wrapX 0 5 2 ≤ (2 : ℚ) / 2 :=
  ⟨by norm_num, wrapX_within_half_width 0 5 2 (by norm_num)⟩

/-- C5: for every candidate stream, fallback and photo count N, the layout
solver returns exactly N placements (no photo is ever dropped); every pair of
distinct placements of which the later one was accepted by the random
collision-checked search — in particular every pair in which neither was
produced by the fallback — is at squared distance at least minDistance^2
(that is, at distance at least D = 3.6); and a photo whose 100 attempts all
collide receives the spiral fallback placement. -/
theorem layoutData_complete_and_spaced :
    ∀ (cand : ℕ → ℕ → Vec3 ℚ) (getSpiralPos : ℕ → Vec3 ℚ) (N : ℕ),
      (layoutData cand getSpiralPos N).length = N ∧
      (∀ (i j : ℕ) (hi : i < (layoutData cand getSpiralPos N).length)
          (hj : j < (layoutData cand getSpiralPos N).length), i ≠ j →
        ((layoutData cand getSpiralPos N).get ⟨i, hi⟩).usedFallback = false →
        ((layoutData cand getSpiralPos N).get ⟨j, hj⟩).usedFallback = false →
        minDistance^2 ≤ dist2 ((layoutData cand getSpiralPos N).get ⟨i, hi⟩).treePos
          ((layoutData cand getSpiralPos N).get ⟨j, hj⟩).treePos) ∧
      (∀ (i : ℕ) (hi : i < (layoutData cand getSpiralPos N).length),
        (∀ a, a < maxAttempts → collides (cand i a) (layoutData cand getSpiralPos i) = true) →
        (layoutData cand getSpiralPos N).get ⟨i, hi⟩ = ⟨getSpiralPos i, true⟩) := by
  intro cand gsp N
  refine ⟨layoutData_length cand gsp N, ?_, ?_⟩
  · intro i j hi hj hne hfi hfj
    rw [layoutData_get] at hfi hfj
    rw [layoutData_get, layoutData_get]
    rcases lt_or_gt_of_ne hne with hij | hij
    · exact layoutData_spaced_aux cand gsp hij hfj
    · rw [dist2_comm]
      exact layoutData_spaced_aux cand gsp hij hfi
  · intro i hi hall
    rw [layoutData_get]
    unfold placedAt
    rw [tryAttempts_exhaust maxAttempts 0 (fun k hk => by simpa using hall k hk)]

/-- C3 counterexample: a star (Accent) particle whose assembled height lies
below the current wave height in assembled mode does NOT get the fast 0.2
override: its interpolation factor is the Δt-scaled base factor (here
clamp(0.1 * 3, 0, 1) = 0.3 ≠ 0.2).  The override of ParticleSystem.tsx lines
157-164 is applied only to ribbon particles. -/
theorem star_activeLerp_not_overridden :
    starLow.treePosition.y < currentWaveHeight (3/2) ∧
    activeLerp starLow true (3/2) (1/10) 3 = lerpFactor (1/10) 3 ∧
    activeLerp starLow true (3/2) (1/10) 3 ≠ 0.2 := by
  have hne : ¬ (starLow.type = PType.RIBBON ∧ true = true) := by
    rintro ⟨hc, -⟩
    exact PType.noConfusion hc
  refine ⟨?_, ?_, ?_⟩
  · norm_num [starLow, currentWaveHeight, waveSpeed, waveStartOffset]
  · unfold activeLerp
    rw [if_neg hne]
  · unfold activeLerp
    rw [if_neg hne]
    norm_num [lerpFactor, clamp, min_def, max_def]

/-- C3 (amended): in assembled mode the per-frame interpolation factor of a
Garland (ribbon) particle is overridden from the Δt-scaled base factor to the
fast constant 0.2 when its assembled height lies below the current wave
height, and to the slow constant 0.05 when the wave has not yet reached that
height; an Accent (star) particle keeps the Δt-scaled base factor
(no override). -/
theorem activeLerp_override_cases :
    ∀ (p : ParticleData) (tst delta speed : ℝ),
      (p.type = PType.RIBBON →
        (p.treePosition.y < currentWaveHeight tst →
          activeLerp p true tst delta speed = 0.2) ∧
        (¬ p.treePosition.y < currentWaveHeight tst →
          activeLerp p true tst delta speed = 0.05)) ∧
      (p.type = PType.STAR_PARTICLE →
        activeLerp p true tst delta speed = lerpFactor delta speed) := by
  intro p tst delta speed
  constructor
  · intro hR
    unfold activeLerp
    rw [if_pos ⟨hR, rfl⟩]
    constructor
    · intro h
      rw [if_pos h]
    · intro h
      rw [if_neg h]
  · intro hS
    unfold activeLerp
    rw [if_neg]
    rintro ⟨hR, -⟩
    rw [hS] at hR
    exact PType.noConfusion hR

/-- Witness for the amended C3 at concrete ribbon and star particles. -/
theorem activeLerp_override_cases_witness :
    ribbonW.type = PType.RIBBON ∧
    ribbonW.treePosition.y < currentWaveHeight (3/2) ∧
    activeLerp ribbonW true (3/2) (1/10) 3 = 0.2 ∧
    starLow.type = PType.STAR_PARTICLE ∧
    activeLerp starLow true (3/2) (1/10) 3 = lerpFactor (1/10) 3 :=
  ⟨rfl,
   by norm_num [ribbonW, currentWaveHeight, waveSpeed, waveStartOffset],
   ((activeLerp_override_cases ribbonW (3/2) (1/10) 3).1 rfl).1
     (by norm_num [ribbonW, currentWaveHeight, waveSpeed, waveStartOffset]),
   rfl,
   (activeLerp_override_cases starLow (3/2) (1/10) 3).2 rfl⟩

/-- C1 counterexample: the reveal condition of a star (Accent) particle is the
fixed threshold currentWaveHeight > 14.0, not the particle's own assembled
height.  starHigh sits at assembled height 15; at timeSinceTransition 1.495
the wave (14.9) has NOT yet passed its height, yet the animator emits a
positive scale (0.17 * 0.18 = 0.0306) that is neither hidden constant. -/
theorem star_visible_before_wave_reaches_height :
    currentWaveHeight (299/200) ≤ starHigh.treePosition.y ∧
    (particleFrame starHigh starHigh.treePosition true 0 (299/200) 0 3).2 ≠ 0.001 ∧
    (particleFrame starHigh starHigh.treePosition true 0 (299/200) 0 3).2 ≠ 0.01 ∧
    0 < (particleFrame starHigh starHigh.treePosition true 0 (299/200) 0 3).2 := by
  have hwave : currentWaveHeight (299/200) = 14.9 := by
    norm_num [currentWaveHeight, waveSpeed, waveStartOffset]
  have hfst : (particleFrame starHigh starHigh.treePosition true 0 (299/200) 0 3).1 =
      starHigh.treePosition := by
    rw [particleFrame_fst, targetOf_tree_fixed (Or.inr rfl), vlerp_self]
  have hsnd : (particleFrame starHigh starHigh.treePosition true 0 (299/200) 0 3).2 =
      scaleRaw starHigh true 0 (299/200) := by
    rw [particleFrame_snd, if_pos ⟨Or.inr rfl, rfl⟩, hfst, distanceTo_self,
      if_neg (by norm_num)]
  have hraw : scaleRaw starHigh true 0 (299/200) = 0.17 * 0.18 := by
    rw [scaleRaw_star_visible rfl (by rw [hwave]; norm_num), hwave]
    norm_num [starHigh, min_def]
  refine ⟨by rw [hwave]; norm_num [starHigh], ?_, ?_, ?_⟩ <;>
    rw [hsnd, hraw] <;> norm_num

/-- C1 (amended): in assembled mode a Garland (ribbon) particle emits the
hidden scale 0.01 as long as the wave has not passed its own assembled height,
and once the wave has passed it (and the particle is within the 3.0
streak-suppression distance of its target) it emits a positive scale; an
Accent (star) particle emits a hidden scale (0.001, or 0.01 under streak
suppression) as long as the wave has not cleared the fixed threshold 14.0, and
once the wave has cleared 14.0 (and it is within the streak distance) it emits
a positive scale.  The Accent reveal condition is the fixed top-of-shape
threshold, not the particle's own height. -/
theorem reveal_wave_scale_conditions :
    ∀ (p : ParticleData) (pos : Vec3 ℝ) (time tst delta speed : ℝ),
      (p.type = PType.RIBBON →
        (currentWaveHeight tst ≤ p.treePosition.y →
          (particleFrame p pos true time tst delta speed).2 = 0.01) ∧
        (p.treePosition.y < currentWaveHeight tst →
          distanceTo (particleFrame p pos true time tst delta speed).1 p.treePosition ≤ 3.0 →
          0 < p.scale →
          0 < (particleFrame p pos true time tst delta speed).2)) ∧
      (p.type = PType.STAR_PARTICLE →
        (currentWaveHeight tst ≤ 14.0 →
          (particleFrame p pos true time tst delta speed).2 = 0.001 ∨
          (particleFrame p pos true time tst delta speed).2 = 0.01) ∧
        (14.0 < currentWaveHeight tst →
          distanceTo (particleFrame p pos true time tst delta speed).1 p.treePosition ≤ 3.0 →
          0 < p.scale →
          0 < (particleFrame p pos true time tst delta speed).2)) := by
  intro p pos time tst delta speed
  constructor
  · intro hR
    constructor
    · intro hw
      rw [particleFrame_snd, if_pos ⟨Or.inl hR, rfl⟩,
        scaleRaw_ribbon_hidden hR (not_lt.mpr hw), ite_self]
    · intro hw hdist hscale
      rw [particleFrame_snd, if_pos ⟨Or.inl hR, rfl⟩, if_neg (not_lt.mpr hdist),
        scaleRaw_ribbon_visible hR hw]
      have hsin := Real.neg_one_le_sin (time * 3 + ((p.treePosition.y + 12.5) / 25) * 10)
      nlinarith
  · intro hS
    constructor
    · intro hw
      rw [particleFrame_snd, if_pos ⟨Or.inr hS, rfl⟩,
        scaleRaw_star_hidden hS (not_lt.mpr hw)]
      by_cases hd : (3.0 : ℝ) < distanceTo (particleFrame p pos true time tst delta speed).1 p.treePosition
      · rw [if_pos hd]
        right
        rfl
      · rw [if_neg hd]
        left
        rfl
    · intro hw hdist hscale
      rw [particleFrame_snd, if_pos ⟨Or.inr hS, rfl⟩, if_neg (not_lt.mpr hdist),
        scaleRaw_star_visible hS hw]
      have hsin := Real.neg_one_le_sin (time * 5 + p.id)
      have hmin : 0 < min 1 ((currentWaveHeight tst - 14.0) / 5) := by
        apply lt_min
        · norm_num
        · linarith
      apply mul_pos (mul_pos hscale hmin)
      linarith

/-- Witness for the amended C1: a waiting ribbon emits 0.01, a ribbon under
the wave (at its target) emits a positive scale, a star below the threshold
emits a hidden constant, and starHigh past the threshold emits a positive
scale. -/
theorem reveal_wave_scale_conditions_witness :
    (particleFrame ribbonAt5 ribbonAt5.treePosition true 0 (1/2) 0 3).2 = 0.01 ∧
    0 < (particleFrame ribbonAt5 ribbonAt5.treePosition true 0 (3/2) 0 3).2 ∧
    ((particleFrame starLow starLow.treePosition true 0 (1/2) 0 3).2 = 0.001 ∨
      (particleFrame starLow starLow.treePosition true 0 (1/2) 0 3).2 = 0.01) ∧
    0 < (particleFrame starHigh starHigh.treePosition true 0 (299/200) 0 3).2 := by
  have hd5 : ∀ tst : ℝ, distanceTo
      (particleFrame ribbonAt5 ribbonAt5.treePosition true 0 tst 0 3).1
      ribbonAt5.treePosition = 0 := by
    intro tst
    rw [particleFrame_fst, targetOf_tree_fixed (Or.inl rfl), vlerp_self, distanceTo_self]
  have hdS : distanceTo
      (particleFrame starHigh starHigh.treePosition true 0 (299/200) 0 3).1
      starHigh.treePosition = 0 := by
    rw [particleFrame_fst, targetOf_tree_fixed (Or.inr rfl), vlerp_self, distanceTo_self]
  refine ⟨?_, ?_, ?_, ?_⟩
  · exact ((reveal_wave_scale_conditions ribbonAt5 ribbonAt5.treePosition 0 (1/2) 0 3).1 rfl).1
      (by norm_num [ribbonAt5, currentWaveHeight, waveSpeed, waveStartOffset])
  · exact ((reveal_wave_scale_conditions ribbonAt5 ribbonAt5.treePosition 0 (3/2) 0 3).1 rfl).2
      (by norm_num [ribbonAt5, currentWaveHeight, waveSpeed, waveStartOffset])
      (by rw [hd5]; norm_num)
      (by norm_num [ribbonAt5])
  · exact ((reveal_wave_scale_conditions starLow starLow.treePosition 0 (1/2) 0 3).2 rfl).1
      (by norm_num [currentWaveHeight, waveSpeed, waveStartOffset])
  · exact ((reveal_wave_scale_conditions starHigh starHigh.treePosition 0 (299/200) 0 3).2 rfl).2
      (by norm_num [currentWaveHeight, waveSpeed, waveStartOffset])
      (by rw [hdS]; norm_num)
      (by norm_num [starHigh])

/-- C4: with waveStartOffset = -15 and waveSpeed = 20, a ribbon particle at
assembled height y = 5 satisfies the reveal-wave eligibility condition
(y < currentWaveHeight) exactly for timeSinceTransition > (5 - (-15)) / 20 = 1
second; for every smaller timeSinceTransition the animator emits the hidden
scale 0.01. -/
theorem ribbon_reveal_timing :
    ∀ (p : ParticleData) (pos : Vec3 ℝ) (time tst delta speed : ℝ),
      p.type = PType.RIBBON → p.treePosition.y = 5 →
      ((p.treePosition.y < currentWaveHeight tst ↔ 1 < tst) ∧
       (tst < 1 → (particleFrame p pos true time tst delta speed).2 = 0.01)) := by
  intro p pos time tst delta speed hR hy
  have hwave : currentWaveHeight tst = -15 + tst * 20 := rfl
  constructor
  · rw [hy, hwave]
    constructor <;> intro h <;> linarith
  · intro h1
    have hnlt : ¬ p.treePosition.y < currentWaveHeight tst := by
      rw [hy, hwave]
      push_neg
      linarith
    rw [particleFrame_snd, if_pos ⟨Or.inl hR, rfl⟩, scaleRaw_ribbon_hidden hR hnlt,
      ite_self]

/-- Witness for C4 at the ribbon particle ribbonAt5: eligibility flips exactly
at timeSinceTransition = 1s, and at 0.5s the emitted scale is 0.01. -/
theorem ribbon_reveal_timing_witness :
    (¬ ribbonAt5.treePosition.y < currentWaveHeight (1/2)) ∧
    ribbonAt5.treePosition.y < currentWaveHeight (3/2) ∧
    (particleFrame ribbonAt5 ribbonAt5.treePosition true 0 (1/2) 0 3).2 = 0.01 :=
  ⟨fun h => absurd ((ribbon_reveal_timing ribbonAt5 ribbonAt5.treePosition 0 (1/2) 0 3
      rfl rfl).1.mp h) (by norm_num),
   (ribbon_reveal_timing ribbonAt5 ribbonAt5.treePosition 0 (3/2) 0 3 rfl rfl).1.mpr
     (by norm_num),
   (ribbon_reveal_timing ribbonAt5 ribbonAt5.treePosition 0 (1/2) 0 3 rfl rfl).2
     (by norm_num)⟩

theorem posSeq_tree_step (p : ParticleData)
    (hp : p.type = PType.RIBBON ∨ p.type = PType.STAR_PARTICLE)
    (p0 : Vec3 ℝ) (times deltas : ℕ → ℝ) (t0 speed : ℝ) (n : ℕ) :
    distanceTo (posSeq p p0 true times deltas t0 speed (n + 1)) p.treePosition =
      |1 - activeLerp p true (times n - t0) (deltas n) speed| *
        distanceTo (posSeq p p0 true times deltas t0 speed n) p.treePosition := by
  rw [show posSeq p p0 true times deltas t0 speed (n + 1) =
      (particleFrame p (posSeq p p0 true times deltas t0 speed n) true (times n)
        (times n - t0) (deltas n) speed).1 from rfl]
  rw [particleFrame_fst, targetOf_tree_fixed hp, distanceTo_vlerp]

theorem posSeq_tree_dist_le (p : ParticleData)
    (hp : p.type = PType.RIBBON ∨ p.type = PType.STAR_PARTICLE)
    (p0 : Vec3 ℝ) (times deltas : ℕ → ℝ) (t0 speed : ℝ) (n : ℕ) :
    distanceTo (posSeq p p0 true times deltas t0 speed (n + 1)) p.treePosition ≤
      distanceTo (posSeq p p0 true times deltas t0 speed n) p.treePosition := by
  rw [posSeq_tree_step p hp p0 times deltas t0 speed n]
  have hl := activeLerp_mem p true (times n - t0) (deltas n) speed
  have habs : |1 - activeLerp p true (times n - t0) (deltas n) speed| ≤ 1 :=
    abs_le.mpr ⟨by linarith [hl.2], by linarith [hl.1]⟩
  exact mul_le_of_le_one_left (distanceTo_nonneg _ _) habs

theorem posSeq_tree_dist_mono (p : ParticleData)
    (hp : p.type = PType.RIBBON ∨ p.type = PType.STAR_PARTICLE)
    (p0 : Vec3 ℝ) (times deltas : ℕ → ℝ) (t0 speed : ℝ) {m n : ℕ} (hmn : m ≤ n) :
    distanceTo (posSeq p p0 true times deltas t0 speed (n + 1)) p.treePosition ≤
      distanceTo (posSeq p p0 true times deltas t0 speed (m + 1)) p.treePosition := by
  induction hmn with
  | refl => exact le_refl _
  | step h ih =>
    exact le_trans (posSeq_tree_dist_le p hp p0 times deltas t0 speed _) ih

/-- C2: the wave height is non-decreasing in the clock time for a fixed
modeChangedAt; and within one assembled-mode session, once a frame takes the
visible branch for a ribbon or star particle (the wave condition holds and the
position is within the streak-suppression distance), every later frame does
too, and the emitted scale on such frames is the positive reveal formula —
the particle never flickers back to hidden. -/
theorem waveHeight_mono_and_reveal_persistent :
    (∀ modeChangedAt t1 t2 : ℝ, t1 ≤ t2 →
      currentWaveHeight (t1 - modeChangedAt) ≤ currentWaveHeight (t2 - modeChangedAt)) ∧
    (∀ (p : ParticleData) (p0 : Vec3 ℝ) (times deltas : ℕ → ℝ) (t0 speed : ℝ),
      p.type = PType.RIBBON → Monotone times → ∀ m n : ℕ, m ≤ n →
      ribbonRevealedAt p p0 times deltas t0 speed m →
      ribbonRevealedAt p p0 times deltas t0 speed n) ∧
    (∀ (p : ParticleData) (p0 : Vec3 ℝ) (times deltas : ℕ → ℝ) (t0 speed : ℝ),
      p.type = PType.STAR_PARTICLE → Monotone times → ∀ m n : ℕ, m ≤ n →
      starRevealedAt p p0 times deltas t0 speed m →
      starRevealedAt p p0 times deltas t0 speed n) ∧
    (∀ (p : ParticleData) (p0 : Vec3 ℝ) (times deltas : ℕ → ℝ) (t0 speed : ℝ) (n : ℕ),
      p.type = PType.RIBBON →
      ribbonRevealedAt p p0 times deltas t0 speed n →
      scaleSeq p p0 true times deltas t0 speed n =
        p.scale * (0.8 + 0.4 * Real.sin ((times n) * 3 + ((p.treePosition.y + 12.5) / 25) * 10))) ∧
    (∀ (p : ParticleData) (p0 : Vec3 ℝ) (times deltas : ℕ → ℝ) (t0 speed : ℝ) (n : ℕ),
      p.type = PType.STAR_PARTICLE →
      starRevealedAt p p0 times deltas t0 speed n →
      scaleSeq p p0 true times deltas t0 speed n =
        p.scale * (min 1 ((currentWaveHeight (times n - t0) - 14.0) / 5)) *
          (1 + 0.3 * Real.sin ((times n) * 5 + p.id))) := by
  refine ⟨?_, ?_, ?_, ?_, ?_⟩
  · intro c t1 t2 h
    unfold currentWaveHeight waveSpeed waveStartOffset
    linarith
  · intro p p0 times deltas t0 speed hR hmono m n hmn hrev
    obtain ⟨hw, hd⟩ := hrev
    constructor
    · have := hmono hmn
      unfold currentWaveHeight waveSpeed waveStartOffset at hw ⊢
      linarith
    · exact le_trans (posSeq_tree_dist_mono p (Or.inl hR) p0 times deltas t0 speed hmn) hd
  · intro p p0 times deltas t0 speed hS hmono m n hmn hrev
    obtain ⟨hw, hd⟩ := hrev
    constructor
    · have := hmono hmn
      unfold currentWaveHeight waveSpeed waveStartOffset at hw ⊢
      linarith
    · exact le_trans (posSeq_tree_dist_mono p (Or.inr hS) p0 times deltas t0 speed hmn) hd
  · intro p p0 times deltas t0 speed n hR hrev
    obtain ⟨hw, hd⟩ := hrev
    unfold scaleSeq
    rw [particleFrame_snd, if_pos ⟨Or.inl hR, rfl⟩]
    rw [show (particleFrame p (posSeq p p0 true times deltas t0 speed n) true (times n)
        (times n - t0) (deltas n) speed).1 =
        posSeq p p0 true times deltas t0 speed (n + 1) from rfl]
    rw [if_neg (not_lt.mpr hd), scaleRaw_ribbon_visible hR hw]
  · intro p p0 times deltas t0 speed n hS hrev
    obtain ⟨hw, hd⟩ := hrev
    unfold scaleSeq
    rw [particleFrame_snd, if_pos ⟨Or.inr hS, rfl⟩]
    rw [show (particleFrame p (posSeq p p0 true times deltas t0 speed n) true (times n)
        (times n - t0) (deltas n) speed).1 =
        posSeq p p0 true times deltas t0 speed (n + 1) from rfl]
    rw [if_neg (not_lt.mpr hd), scaleRaw_star_visible hS hw]

/-- Witness for C2: a concrete ribbon session (frames at clock times 0, 1, 2,
transition at -2) with the particle starting at its assembled target is
revealed at frame 0 and therefore still revealed at frame 1, and its emitted
scale at frame 0 is the reveal formula. -/
theorem waveHeight_mono_and_reveal_persistent_witness :
    currentWaveHeight (0 - (-2 : ℝ)) ≤ currentWaveHeight (1 - (-2 : ℝ)) ∧
    ribbonRevealedAt ribbonW ribbonW.treePosition (fun n => (n : ℝ)) (fun _ => 1) (-2) (5/2) 0 ∧
    ribbonRevealedAt ribbonW ribbonW.treePosition (fun n => (n : ℝ)) (fun _ => 1) (-2) (5/2) 1 ∧
    scaleSeq ribbonW ribbonW.treePosition true (fun n => (n : ℝ)) (fun _ => 1) (-2) (5/2) 0 =
      ribbonW.scale * (0.8 + 0.4 * Real.sin (((0 : ℕ) : ℝ) * 3 +
        ((ribbonW.treePosition.y + 12.5) / 25) * 10)) := by
  have hpos1 : posSeq ribbonW ribbonW.treePosition true (fun n => (n : ℝ)) (fun _ => 1) (-2) (5/2) 1 =
      ribbonW.treePosition := by
    rw [show posSeq ribbonW ribbonW.treePosition true (fun n => (n : ℝ)) (fun _ => 1) (-2) (5/2) 1 =
        (particleFrame ribbonW ribbonW.treePosition true ((0 : ℕ) : ℝ)
          (((0 : ℕ) : ℝ) - (-2)) 1 (5/2)).1 from rfl]
    rw [particleFrame_fst, targetOf_tree_fixed (Or.inl rfl), vlerp_self]
  have hmono : Monotone (fun n : ℕ => (n : ℝ)) := fun a b h => by
    simp only
    exact_mod_cast h
  have hrev0 : ribbonRevealedAt ribbonW ribbonW.treePosition (fun n => (n : ℝ))
      (fun _ => 1) (-2) (5/2) 0 := by
    constructor
    · norm_num [ribbonW, currentWaveHeight, waveSpeed, waveStartOffset]
    · rw [hpos1, distanceTo_self]
      norm_num
  refine ⟨waveHeight_mono_and_reveal_persistent.1 (-2) 0 1 (by norm_num), hrev0, ?_, ?_⟩
  · exact waveHeight_mono_and_reveal_persistent.2.1 ribbonW ribbonW.treePosition
      (fun n => (n : ℝ)) (fun _ => 1) (-2) (5/2) rfl hmono 0 1 (by norm_num) hrev0
  · exact waveHeight_mono_and_reveal_persistent.2.2.2.1 ribbonW ribbonW.treePosition
      (fun n => (n : ℝ)) (fun _ => 1) (-2) (5/2) 0 rfl hrev0

theorem activeLerp_explode (p : ParticleData) (tst delta speed : ℝ) :
    activeLerp p false tst delta speed = lerpFactor delta speed := by
  unfold activeLerp
  rw [if_neg]
  rintro ⟨-, hb⟩
  exact Bool.noConfusion hb

theorem scaleRaw_ribbon_explode {p : ParticleData} (hR : p.type = PType.RIBBON)
    (time tst : ℝ) : scaleRaw p false time tst = 0 := by
  simp [scaleRaw, hR]

/-- C9: starting in assembled mode with a ribbon (Garland) particle's running
position at its assembled position (distinct from its dispersed position),
after flipping to dispersed mode every simulated frame count n ≥ 1 at a fixed
Δt > 0 leaves the running position strictly closer to the dispersed target
than the initial distance; and in dispersed mode the emitted scale of the
ribbon particle is exactly 0 on every frame. -/
theorem mode_flip_converges_and_hides :
    ∀ (p : ParticleData) (times : ℕ → ℝ) (t0 delta speed : ℝ),
      p.type = PType.RIBBON → p.treePosition ≠ p.explodePosition →
      0 < delta → 0 < speed →
      (∀ n : ℕ, 1 ≤ n →
        distanceTo (posSeq p p.treePosition false times (fun _ => delta) t0 speed n)
            p.explodePosition <
          distanceTo p.treePosition p.explodePosition) ∧
      (∀ n : ℕ, scaleSeq p p.treePosition false times (fun _ => delta) t0 speed n = 0) := by
  intro p times t0 delta speed hR hne hdelta hspeed
  have hl1 : lerpFactor delta speed ≤ 1 := (lerpFactor_mem delta speed).2
  have hl0 : 0 < lerpFactor delta speed := by
    unfold lerpFactor clamp
    have : 0 < min 1 (delta * speed) := lt_min (by norm_num) (mul_pos hdelta hspeed)
    exact lt_max_of_lt_right this
  have hstep : ∀ n : ℕ,
      distanceTo (posSeq p p.treePosition false times (fun _ => delta) t0 speed (n + 1))
          p.explodePosition =
        (1 - lerpFactor delta speed) *
          distanceTo (posSeq p p.treePosition false times (fun _ => delta) t0 speed n)
            p.explodePosition := by
    intro n
    rw [show posSeq p p.treePosition false times (fun _ => delta) t0 speed (n + 1) =
        (particleFrame p (posSeq p p.treePosition false times (fun _ => delta) t0 speed n)
          false (times n) (times n - t0) delta speed).1 from rfl]
    rw [particleFrame_fst, targetOf_explode_fixed (Or.inl hR), activeLerp_explode,
      distanceTo_vlerp, abs_of_nonneg (by linarith)]
  have hd0 : 0 < distanceTo p.treePosition p.explodePosition := distanceTo_pos_of_ne hne
  have hbound : ∀ n : ℕ,
      distanceTo (posSeq p p.treePosition false times (fun _ => delta) t0 speed (n + 1))
          p.explodePosition ≤
        (1 - lerpFactor delta speed) * distanceTo p.treePosition p.explodePosition := by
    intro n
    induction n with
    | zero =>
      rw [hstep 0]
      exact le_refl _
    | succ n ih =>
      rw [hstep (n + 1)]
      calc (1 - lerpFactor delta speed) *
            distanceTo (posSeq p p.treePosition false times (fun _ => delta) t0 speed (n + 1))
              p.explodePosition
          ≤ 1 * distanceTo (posSeq p p.treePosition false times (fun _ => delta) t0 speed (n + 1))
              p.explodePosition :=
            mul_le_mul_of_nonneg_right (by linarith) (distanceTo_nonneg _ _)
        _ = distanceTo (posSeq p p.treePosition false times (fun _ => delta) t0 speed (n + 1))
              p.explodePosition := one_mul _
        _ ≤ (1 - lerpFactor delta speed) * distanceTo p.treePosition p.explodePosition := ih
  constructor
  · intro n hn
    obtain ⟨m, rfl⟩ := Nat.exists_eq_add_of_le hn
    have := hbound m
    have hlt : (1 - lerpFactor delta speed) * distanceTo p.treePosition p.explodePosition <
        distanceTo p.treePosition p.explodePosition := by
      nlinarith
    calc distanceTo (posSeq p p.treePosition false times (fun _ => delta) t0 speed (1 + m))
          p.explodePosition
        = distanceTo (posSeq p p.treePosition false times (fun _ => delta) t0 speed (m + 1))
            p.explodePosition := by rw [Nat.add_comm]
      _ ≤ (1 - lerpFactor delta speed) * distanceTo p.treePosition p.explodePosition := hbound m
      _ < distanceTo p.treePosition p.explodePosition := hlt
  · intro n
    unfold scaleSeq
    rw [particleFrame_snd, if_neg, scaleRaw_ribbon_explode hR]
    rintro ⟨-, hb⟩
    exact Bool.noConfusion hb

/-- Witness for C9: the concrete ribbon ribbonW, one frame at Δt = 1 with the
ribbon animation speed 2.5, moves strictly closer to the dispersed target, and
its dispersed-mode scale is 0. -/
theorem mode_flip_converges_and_hides_witness :
    ribbonW.type = PType.RIBBON ∧ ribbonW.treePosition ≠ ribbonW.explodePosition ∧
    (0 : ℝ) < 1 ∧ (0 : ℝ) < 5/2 ∧
    distanceTo (posSeq ribbonW ribbonW.treePosition false (fun n => (n : ℝ)) (fun _ => 1) 0 (5/2) 1)
        ribbonW.explodePosition <
      distanceTo ribbonW.treePosition ribbonW.explodePosition ∧
    scaleSeq ribbonW ribbonW.treePosition false (fun n => (n : ℝ)) (fun _ => 1) 0 (5/2) 0 = 0 := by
  have hne : ribbonW.treePosition ≠ ribbonW.explodePosition := by
    intro h
    have hx := congrArg Vec3.x h
    norm_num [ribbonW] at hx
  refine ⟨rfl, hne, by norm_num, by norm_num, ?_, ?_⟩
  · exact (mode_flip_converges_and_hides ribbonW (fun n => (n : ℝ)) 0 1 (5/2) rfl hne
      (by norm_num) (by norm_num)).1 1 (le_refl 1)
  · exact (mode_flip_converges_and_hides ribbonW (fun n => (n : ℝ)) 0 1 (5/2) rfl hne
      (by norm_num) (by norm_num)).2 0

theorem randomSpherePoint_x (u v w r : ℝ) :
    (randomSpherePoint u v w r).x =
      (w ^ ((1 : ℝ)/3) * r) * Real.sin (Real.arccos (2 * v - 1)) * Real.cos (2 * Real.pi * u) := rfl

theorem randomSpherePoint_y (u v w r : ℝ) :
    (randomSpherePoint u v w r).y =
      (w ^ ((1 : ℝ)/3) * r) * Real.sin (Real.arccos (2 * v - 1)) * Real.sin (2 * Real.pi * u) := rfl

theorem randomSpherePoint_z (u v w r : ℝ) :
    (randomSpherePoint u v w r).z =
      (w ^ ((1 : ℝ)/3) * r) * Real.cos (Real.arccos (2 * v - 1)) := rfl

theorem vnorm_randomSpherePoint (u v w r : ℝ) (hw0 : 0 ≤ w) (hw1 : w ≤ 1) (hr : 0 ≤ r) :
    vnorm (randomSpherePoint u v w r) ≤ r := by
  have hphi := Real.sin_sq_add_cos_sq (Real.arccos (2 * v - 1))
  have htheta := Real.sin_sq_add_cos_sq (2 * Real.pi * u)
  have hsum : (randomSpherePoint u v w r).x^2 + (randomSpherePoint u v w r).y^2 +
      (randomSpherePoint u v w r).z^2 = (w ^ ((1 : ℝ)/3) * r)^2 := by
    rw [randomSpherePoint_x, randomSpherePoint_y, randomSpherePoint_z]
    linear_combination ((w ^ ((1 : ℝ)/3) * r)^2 * Real.sin (Real.arccos (2 * v - 1))^2) * htheta +
      (w ^ ((1 : ℝ)/3) * r)^2 * hphi
  have hRnn : 0 ≤ w ^ ((1 : ℝ)/3) * r := mul_nonneg (Real.rpow_nonneg hw0 _) hr
  unfold vnorm
  rw [hsum, Real.sqrt_sq hRnn]
  have hle1 : w ^ ((1 : ℝ)/3) ≤ 1 := Real.rpow_le_one hw0 hw1 (by norm_num)
  exact mul_le_of_le_one_left hr hle1

/-- C6: for every generated particle and all outcomes of the random draws in
[0, 1), the dispersed (explode) position lies within the category-specific
bounding sphere: 45 for leaves (Foliage), 55 for ornaments, 60 for ribbon
(Garland), 80 for star particles (Accent). -/
theorem explode_positions_bounded :
    ∀ u v w : ℝ, 0 ≤ w → w < 1 →
      (∀ (i : ℕ) (y01 angle01 r01 s01 : ℝ),
        vnorm (mkLeaf i y01 angle01 r01 u v w s01).explodePosition ≤ 45) ∧
      (∀ (i : ℕ) (y01 angle01 r01 s01 : ℝ),
        vnorm (mkOrnament i y01 angle01 r01 u v w s01).explodePosition ≤ 55) ∧
      (∀ (i N : ℕ) (spread01 s01 : ℝ),
        vnorm (mkRibbonParticle i N spread01 u v w s01).explodePosition ≤ 60) ∧
      (∀ (i : ℕ) (lobe01 t01 off01 z01 s01 : ℝ),
        vnorm (mkStarParticle i lobe01 t01 off01 z01 u v w s01).explodePosition ≤ 80) := by
  intro u v w hw0 hw1
  refine ⟨fun i y01 a01 r01 s01 => ?_, fun i y01 a01 r01 s01 => ?_,
    fun i N sp01 s01 => ?_, fun i l01 t01 o01 z01 s01 => ?_⟩
  · exact vnorm_randomSpherePoint u v w 45 hw0 hw1.le (by norm_num)
  · exact vnorm_randomSpherePoint u v w 55 hw0 hw1.le (by norm_num)
  · exact vnorm_randomSpherePoint u v w 60 hw0 hw1.le (by norm_num)
  · exact vnorm_randomSpherePoint u v w 80 hw0 hw1.le (by norm_num)

/-- Witness for C6 at the all-zero random draws. -/
theorem explode_positions_bounded_witness :
    (0 : ℝ) ≤ 0 ∧ (0 : ℝ) < 1 ∧
    vnorm (mkLeaf 0 0 0 0 0 0 0 0).explodePosition ≤ 45 ∧
    vnorm (mkStarParticle 0 0 0 0 0 0 0 0 0).explodePosition ≤ 80 :=
  ⟨le_refl 0, by norm_num,
   (explode_positions_bounded 0 0 0 (le_refl 0) (by norm_num)).1 0 0 0 0 0,
   (explode_positions_bounded 0 0 0 (le_refl 0) (by norm_num)).2.2.2 0 0 0 0 0 0⟩

/-- Witness for C5: two photos whose candidates are 10 apart are both accepted
by the random search and end up at squared distance 100 ≥ 3.6². -/
theorem layoutData_complete_and_spaced_witness :
    (layoutData candW spiralW 2).length = 2 ∧
    minDistance^2 ≤ dist2
      ((layoutData candW spiralW 2).get ⟨0, by rw [layoutData_length]; omega⟩).treePos
      ((layoutData candW spiralW 2).get ⟨1, by rw [layoutData_length]; omega⟩).treePos := by
  have h0 : placedAt candW spiralW 0 = ⟨⟨0, 0, 0⟩, false⟩ := by
    unfold placedAt
    rw [show maxAttempts = 99 + 1 from rfl, tryAttempts_accept_first
      (show collides (candW 0 0) (layoutData candW spiralW 0) = false from rfl)]
    norm_num [candW]
  have h1 : placedAt candW spiralW 1 = ⟨⟨10, 0, 0⟩, false⟩ := by
    unfold placedAt
    have hcol : collides (candW 1 0) (layoutData candW spiralW 1) = false := by
      have hl1 : layoutData candW spiralW 1 = [⟨⟨0, 0, 0⟩, false⟩] := by
        rw [layoutData_succ, h0]
        rfl
      rw [hl1]
      simp only [collides, List.any_cons, List.any_nil, Bool.or_false,
        decide_eq_false_iff_not, not_lt]
      norm_num [dist2, candW, minDistance]
    rw [show maxAttempts = 99 + 1 from rfl, tryAttempts_accept_first hcol]
    norm_num [candW]
  refine ⟨(layoutData_complete_and_spaced candW spiralW 2).1, ?_⟩
  have := (layoutData_complete_and_spaced candW spiralW 2).2.1 0 1
    (by rw [layoutData_length]; omega) (by rw [layoutData_length]; omega)
    (by omega)
    (by rw [layoutData_get, h0])
    (by rw [layoutData_get, h1])
  exact this

end CyberTree
